import Mathlib

/-!
Verification of the CuTe tiled-copy tutorial
(`examples/cute/tutorial/tiled_copy_sycl.cpp`).

The program copies a 2-D array of `float`s between two device buffers.
Since the whole computation is a pure copy (no arithmetic on the values),
element values are modelled as opaque bit patterns of type `Nat`; buffers
are modelled as functions `Nat → Nat` from flat (column-major) offsets to
values, matching `make_layout(tensor_shape)`, whose default layout is
column-major with strides `(1, m)`.

The two kernels are embedded by the set of flat offsets each one copies.
Every lane of either kernel performs `D[g] := S[g]` for the global offsets
`g` assigned to it (staging through a register fragment composes to the
identity on values), so the net effect of a kernel launch is
`D'[g] = if g is covered then S[g] else D0[g]`, where the coverage set is
the union over work-groups and lanes of the offsets each lane accesses.
The index arithmetic of the coverage sets is transcribed from the source:

* `copy_kernel` (naive): work-group `(gx, gy)` handles the tile at
  `(gx*M, gy*N)`; `local_partition` with the column-major thread layout
  `(TM, TN)` gives linear lane `t` the coordinates `(t % TM, t / TM)` and
  the striped elements `(t % TM + a*TM, t / TM + b*TN)` of the tile,
  `a < M / TM`, `b < N / TN`.

* `copy_kernel_vectorized`: `make_tiled_copy` with the column-major thread
  layout `(TM, TN)` and vector layout `(V, 1)` gives lane `t` the
  contiguous vectors starting at row `(t % TM) * V`, i.e. the elements
  `((t % TM) * V + v + a*(TM*V), t / TM + b*TN)` of the tile, `v < V`,
  `a < M / (TM*V)`, `b < N / TN`.
-/

set_option maxHeartbeats 1000000

namespace TiledCopy

/-! ### Arithmetic helpers -/

theorem pos_of_mul_pos_left {a b : Nat} (h : 0 < a * b) : 0 < a := by
  rcases Nat.eq_zero_or_pos a with rfl | ha
  · simp at h
  · exact ha

theorem pos_of_mul_pos_right {a b : Nat} (h : 0 < a * b) : 0 < b := by
  rcases Nat.eq_zero_or_pos b with rfl | hb
  · simp at h
  · exact hb

theorem add_mul_lt {x B g G : Nat} (hx : x < B) (hg : g < G) :
    x + g * B < G * B := by
  calc x + g * B < B + g * B := by omega
    _ = (g + 1) * B := by ring
    _ ≤ G * B := Nat.mul_le_mul_right B hg

theorem div_lt_div_of_dvd {a b c : Nat} (h : c ∣ b) (hab : a < b) :
    a / c < b / c := by
  rcases h with ⟨k, rfl⟩
  rcases Nat.eq_zero_or_pos c with rfl | hc
  · rw [Nat.zero_mul] at hab; exact absurd hab (Nat.not_lt_zero a)
  · rw [Nat.mul_div_cancel_left k hc]
    exact Nat.div_lt_of_lt_mul hab

/-! ### Flat column-major indexing -/

/-- Flat offset of coordinate `(r, c)` in a column-major `(m, n)` layout
with strides `(1, m)`, as produced by `make_layout(tensor_shape)`. -/
def flatIdx (m r c : Nat) : Nat := r + c * m

theorem flatIdx_lt {m n r c : Nat} (hr : r < m) (hc : c < n) :
    flatIdx m r c < m * n := by
  have h := add_mul_lt hr hc
  rw [Nat.mul_comm m n]
  exact h

/-! ### Coverage sets of the two kernels -/

/-- Modelled from the spec: set of flat offsets written by some lane of some
work-group of `copy_kernel` (the naive kernel). Work-group `(gx, gy)` of the
grid `(m/M, n/N)` handles the tile at `(gx*M, gy*N)`; `local_partition` with
the `(TM, TN)` thread layout assigns linear lane `t` the striped tile
elements `(t % TM + a*TM, t / TM + b*TN)`. -/
def naiveCovers (m n M N TM TN i : Nat) : Bool :=
  (List.range (m / M)).any fun gx =>
  (List.range (n / N)).any fun gy =>
  (List.range (TM * TN)).any fun t =>
  (List.range (M / TM)).any fun a =>
  (List.range (N / TN)).any fun b =>
    i == flatIdx m (gx * M + t % TM + a * TM) (gy * N + t / TM + b * TN)

/-- Modelled from the spec: set of flat offsets written by some lane of some
work-group of `copy_kernel_vectorized`. `make_tiled_copy` with thread layout
`(TM, TN)` and vector layout `(V, 1)` assigns lane `t` the vectors of `V`
contiguous rows starting at row `(t % TM) * V` of each `(TM*V, TN)` sub-tile
of the tile. -/
def vecCovers (m n M N TM TN V i : Nat) : Bool :=
  (List.range (m / M)).any fun gx =>
  (List.range (n / N)).any fun gy =>
  (List.range (TM * TN)).any fun t =>
  (List.range V).any fun v =>
  (List.range (M / (TM * V))).any fun a =>
  (List.range (N / TN)).any fun b =>
    i == flatIdx m (gx * M + (t % TM * V + v) + a * (TM * V)) (gy * N + t / TM + b * TN)

/-- Net effect of a kernel launch on the destination buffer: every covered
offset receives the source value at that same offset (each lane performs
`D[g] := S[g]` via a register fragment), every other offset keeps its
previous content. -/
def copyResult (covers : Nat → Bool) (S D0 : Nat → Nat) : Nat → Nat :=
  fun i => if covers i then S i else D0 i

/-- Destination buffer after launching `copy_kernel` on the whole grid. -/
def naiveCopy (m n M N TM TN : Nat) (S D0 : Nat → Nat) : Nat → Nat :=
  copyResult (naiveCovers m n M N TM TN) S D0

/-- Destination buffer after launching `copy_kernel_vectorized` on the whole
grid. -/
def vecCopy (m n M N TM TN V : Nat) (S D0 : Nat → Nat) : Nat → Nat :=
  copyResult (vecCovers m n M N TM TN V) S D0

/-! ### Coverage characterisation -/

theorem naiveCovers_iff {m n M N TM TN : Nat}
    (hTMM : TM ∣ M) (hTNN : TN ∣ N) (hMm : M ∣ m) (hNn : N ∣ n) (i : Nat) :
    naiveCovers m n M N TM TN i = true ↔ i < m * n := by
  unfold naiveCovers
  simp only [List.any_eq_true, List.mem_range, beq_iff_eq]
  constructor
  · rintro ⟨gx, hgx, gy, hgy, t, ht, a, ha, b, hb, rfl⟩
    have hTMpos : 0 < TM := pos_of_mul_pos_left (Nat.lt_of_le_of_lt (Nat.zero_le t) ht)
    have hrow : gx * M + t % TM + a * TM < m := by
      have h1 : t % TM + a * TM < M := by
        have h := add_mul_lt (Nat.mod_lt t hTMpos) ha
        rwa [Nat.div_mul_cancel hTMM] at h
      have h2 := add_mul_lt h1 hgx
      rw [Nat.div_mul_cancel hMm] at h2
      linarith
    have hcol : gy * N + t / TM + b * TN < n := by
      have h1 : t / TM + b * TN < N := by
        have h := add_mul_lt (Nat.div_lt_of_lt_mul ht) hb
        rwa [Nat.div_mul_cancel hTNN] at h
      have h2 := add_mul_lt h1 hgy
      rw [Nat.div_mul_cancel hNn] at h2
      linarith
    exact flatIdx_lt hrow hcol
  · intro hi
    have hm : 0 < m := pos_of_mul_pos_left (Nat.lt_of_le_of_lt (Nat.zero_le i) hi)
    have hn : 0 < n := pos_of_mul_pos_right (Nat.lt_of_le_of_lt (Nat.zero_le i) hi)
    have hMpos : 0 < M := Nat.pos_of_dvd_of_pos hMm hm
    have hNpos : 0 < N := Nat.pos_of_dvd_of_pos hNn hn
    have hTMpos : 0 < TM := Nat.pos_of_dvd_of_pos hTMM hMpos
    have hTNpos : 0 < TN := Nat.pos_of_dvd_of_pos hTNN hNpos
    set r := i % m with hrdef
    set c := i / m with hcdef
    have hr : r < m := Nat.mod_lt i hm
    have hc : c < n := Nat.div_lt_of_lt_mul hi
    set tm := r % M % TM with htmdef
    set tn := c % N % TN with htndef
    set t := tm + tn * TM with htdef
    have htm : tm < TM := Nat.mod_lt _ hTMpos
    have htn : tn < TN := Nat.mod_lt _ hTNpos
    have htmod : t % TM = tm := by
      rw [htdef, Nat.add_mul_mod_self_right, Nat.mod_eq_of_lt htm]
    have htdiv : t / TM = tn := by
      rw [htdef, Nat.add_mul_div_right _ _ hTMpos, Nat.div_eq_of_lt htm,
        Nat.zero_add]
    refine ⟨r / M, div_lt_div_of_dvd hMm hr, c / N, div_lt_div_of_dvd hNn hc,
      t, ?_, r % M / TM, div_lt_div_of_dvd hTMM (Nat.mod_lt r hMpos),
      c % N / TN, div_lt_div_of_dvd hTNN (Nat.mod_lt c hNpos), ?_⟩
    · rw [Nat.mul_comm TM TN]
      exact add_mul_lt htm htn
    · have hrow : r / M * M + t % TM + r % M / TM * TM = r := by
        rw [htmod, Nat.add_assoc, htmdef, Nat.mod_add_div', Nat.div_add_mod']
      have hcol : c / N * N + t / TM + c % N / TN * TN = c := by
        rw [htdiv, Nat.add_assoc, htndef, Nat.mod_add_div', Nat.div_add_mod']
      rw [flatIdx, hrow, hcol, hrdef, hcdef, Nat.mod_add_div']

theorem vecCovers_iff {m n M N TM TN V : Nat}
    (hTMV : TM * V ∣ M) (hTNN : TN ∣ N) (hMm : M ∣ m) (hNn : N ∣ n) (i : Nat) :
    vecCovers m n M N TM TN V i = true ↔ i < m * n := by
  unfold vecCovers
  simp only [List.any_eq_true, List.mem_range, beq_iff_eq]
  constructor
  · rintro ⟨gx, hgx, gy, hgy, t, ht, v, hv, a, ha, b, hb, rfl⟩
    have hTMpos : 0 < TM := pos_of_mul_pos_left (Nat.lt_of_le_of_lt (Nat.zero_le t) ht)
    have hrow : gx * M + (t % TM * V + v) + a * (TM * V) < m := by
      have h1 : t % TM * V + v < TM * V := by
        have h := add_mul_lt hv (Nat.mod_lt t hTMpos)
        linarith
      have h2 : t % TM * V + v + a * (TM * V) < M := by
        have h := add_mul_lt h1 ha
        rwa [Nat.div_mul_cancel hTMV] at h
      have h3 := add_mul_lt h2 hgx
      rw [Nat.div_mul_cancel hMm] at h3
      linarith
    have hcol : gy * N + t / TM + b * TN < n := by
      have h1 : t / TM + b * TN < N := by
        have h := add_mul_lt (Nat.div_lt_of_lt_mul ht) hb
        rwa [Nat.div_mul_cancel hTNN] at h
      have h2 := add_mul_lt h1 hgy
      rw [Nat.div_mul_cancel hNn] at h2
      linarith
    exact flatIdx_lt hrow hcol
  · intro hi
    have hm : 0 < m := pos_of_mul_pos_left (Nat.lt_of_le_of_lt (Nat.zero_le i) hi)
    have hn : 0 < n := pos_of_mul_pos_right (Nat.lt_of_le_of_lt (Nat.zero_le i) hi)
    have hMpos : 0 < M := Nat.pos_of_dvd_of_pos hMm hm
    have hNpos : 0 < N := Nat.pos_of_dvd_of_pos hNn hn
    have hTMVpos : 0 < TM * V := Nat.pos_of_dvd_of_pos hTMV hMpos
    have hTMpos : 0 < TM := pos_of_mul_pos_left hTMVpos
    have hVpos : 0 < V := pos_of_mul_pos_right hTMVpos
    have hTNpos : 0 < TN := Nat.pos_of_dvd_of_pos hTNN hNpos
    set r := i % m with hrdef
    set c := i / m with hcdef
    have hr : r < m := Nat.mod_lt i hm
    have hc : c < n := Nat.div_lt_of_lt_mul hi
    set x := r % M with hxdef
    set q := x / V with hqdef
    set tm := q % TM with htmdef
    set tn := c % N % TN with htndef
    set t := tm + tn * TM with htdef
    have htm : tm < TM := Nat.mod_lt _ hTMpos
    have htn : tn < TN := Nat.mod_lt _ hTNpos
    have htmod : t % TM = tm := by
      rw [htdef, Nat.add_mul_mod_self_right, Nat.mod_eq_of_lt htm]
    have htdiv : t / TM = tn := by
      rw [htdef, Nat.add_mul_div_right _ _ hTMpos, Nat.div_eq_of_lt htm,
        Nat.zero_add]
    have hx : x < M := Nat.mod_lt r hMpos
    have ha : q / TM < M / (TM * V) := by
      rw [hqdef, Nat.div_div_eq_div_mul, Nat.mul_comm V TM]
      exact div_lt_div_of_dvd hTMV hx
    refine ⟨r / M, div_lt_div_of_dvd hMm hr, c / N, div_lt_div_of_dvd hNn hc,
      t, ?_, x % V, Nat.mod_lt x hVpos, q / TM, ha,
      c % N / TN, div_lt_div_of_dvd hTNN (Nat.mod_lt c hNpos), ?_⟩
    · rw [Nat.mul_comm TM TN]
      exact add_mul_lt htm htn
    · have hinner : t % TM * V + x % V + q / TM * (TM * V) = x := by
        rw [htmod]
        have hre : tm * V + x % V + q / TM * (TM * V) =
            (tm + q / TM * TM) * V + x % V := by ring
        rw [hre, htmdef, Nat.mod_add_div', hqdef, Nat.div_add_mod']
      have hrow : r / M * M + (t % TM * V + x % V) + q / TM * (TM * V) = r := by
        have h := hinner
        have hsplit : r / M * M + (t % TM * V + x % V) + q / TM * (TM * V) =
            r / M * M + (t % TM * V + x % V + q / TM * (TM * V)) := by ring
        rw [hsplit, h, hxdef, Nat.div_add_mod']
      have hcol : c / N * N + t / TM + c % N / TN * TN = c := by
        rw [htdiv, Nat.add_assoc, htndef, Nat.mod_add_div', Nat.div_add_mod']
      rw [flatIdx, hrow, hcol, hrdef, hcdef, Nat.mod_add_div']

/-! ### Host-side verification loop (`main`, lines 234-246)

The loop walks `i = 0 .. size-1`; whenever `h_S[i] != h_D[i]` it prints the
mismatching index and both values, increments `errors`, and once
`++errors >= kErrorLimit` prints the aborting message and returns `-1`.
When the loop finishes it prints a success message and returns `0`. -/

/-- Observable outcome of the verification phase of `main`: the value
returned by `main`, the mismatch diagnostic lines in print order (index,
source value, destination value), whether the aborting message was printed,
and whether the success message was printed. -/
structure VerifyResult where
  exitCode : Int
  reported : List (Nat × Nat × Nat)
  printedAbort : Bool
  printedSuccess : Bool
  deriving Repr, DecidableEq

/-- Mismatch limit `kErrorLimit` of `main`. -/
def kErrorLimit : Nat := 10

/-- One step per remaining index, carrying the error count and the
diagnostic lines printed so far (in reverse order). -/
def verifyAux (S D : Nat → Nat) : List Nat → Nat → List (Nat × Nat × Nat) → VerifyResult
  | [], _, acc => ⟨0, acc.reverse, false, true⟩
  | i :: rest, errors, acc =>
    if S i ≠ D i then
      if kErrorLimit ≤ errors + 1 then
        ⟨-1, ((i, S i, D i) :: acc).reverse, true, false⟩
      else
        verifyAux S D rest (errors + 1) ((i, S i, D i) :: acc)
    else
      verifyAux S D rest errors acc

/-- The verification loop of `main` over indices `0 .. len-1`. -/
def verify (S D : Nat → Nat) (len : Nat) : VerifyResult :=
  verifyAux S D (List.range len) 0 []

/-- Indices of `l` at which the two buffers disagree. -/
def mismatchList (S D : Nat → Nat) (l : List Nat) : List Nat :=
  l.filter fun i => S i != D i

/-- Diagnostic line printed for a mismatch at index `i`. -/
def reportOf (S D : Nat → Nat) (i : Nat) : Nat × Nat × Nat := (i, S i, D i)

theorem verifyAux_under_limit (S D : Nat → Nat) :
    ∀ (l : List Nat) (errors : Nat) (acc : List (Nat × Nat × Nat)),
      errors + (mismatchList S D l).length < kErrorLimit →
      verifyAux S D l errors acc =
        ⟨0, acc.reverse ++ (mismatchList S D l).map (reportOf S D), false, true⟩ := by
  intro l
  induction l with
  | nil =>
    intro errors acc _
    simp [verifyAux, mismatchList]
  | cons i rest ih =>
    intro errors acc h
    by_cases hm : S i = D i
    · have hfil : mismatchList S D (i :: rest) = mismatchList S D rest := by
        simp [mismatchList, List.filter_cons, hm]
      rw [hfil] at h ⊢
      rw [verifyAux, if_neg (by simp [hm])]
      exact ih errors acc h
    · have hfil : mismatchList S D (i :: rest) = i :: mismatchList S D rest := by
        simp [mismatchList, List.filter_cons, hm]
      rw [hfil] at h
      have hlt : ¬ kErrorLimit ≤ errors + 1 := by
        simp only [List.length_cons] at h
        omega
      rw [verifyAux, if_pos hm, if_neg hlt,
        ih (errors + 1) ((i, S i, D i) :: acc) (by simp only [List.length_cons] at h; omega),
        hfil]
      simp [reportOf]

theorem verifyAux_at_limit (S D : Nat → Nat) :
    ∀ (l : List Nat) (errors : Nat) (acc : List (Nat × Nat × Nat)),
      errors < kErrorLimit →
      kErrorLimit ≤ errors + (mismatchList S D l).length →
      verifyAux S D l errors acc =
        ⟨-1, acc.reverse ++
          ((mismatchList S D l).take (kErrorLimit - errors)).map (reportOf S D),
          true, false⟩ := by
  intro l
  induction l with
  | nil =>
    intro errors acc herr habs
    simp only [mismatchList, List.filter_nil, List.length_nil] at habs
    omega
  | cons i rest ih =>
    intro errors acc herr habs
    by_cases hm : S i = D i
    · have hfil : mismatchList S D (i :: rest) = mismatchList S D rest := by
        simp [mismatchList, List.filter_cons, hm]
      rw [hfil] at habs
      rw [verifyAux, if_neg (by simp [hm]), ih errors acc herr habs, hfil]
    · have hfil : mismatchList S D (i :: rest) = i :: mismatchList S D rest := by
        simp [mismatchList, List.filter_cons, hm]
      by_cases hstop : kErrorLimit ≤ errors + 1
      · have htake : kErrorLimit - errors = 1 := by omega
        rw [verifyAux, if_pos hm, if_pos hstop, hfil, htake]
        simp [reportOf]
      · have htake : kErrorLimit - errors = (kErrorLimit - (errors + 1)) + 1 := by
          omega
        rw [hfil] at habs
        simp only [List.length_cons] at habs
        rw [verifyAux, if_pos hm, if_neg hstop,
          ih (errors + 1) ((i, S i, D i) :: acc) (by omega) (by omega),
          hfil, htake, List.take_succ_cons]
        simp [reportOf]

/-! ### Driver (`main`) -/

/-- Modelled from the spec: `cute::evenly_divides(tensor_shape, block_shape)`
is library code outside this file; per the source comment it is an
"equivalent check to the above" modulus test, deciding whether each mode of
the block shape divides the corresponding mode of the tensor shape. -/
def evenly_divides (m n M N : Nat) : Bool :=
  (m % M == 0) && (n % N == 0)

/-- Which kernel body a launch dispatches. -/
inductive KernelKind where
  | naive
  | vectorized
  deriving Repr, DecidableEq

/-- Observable outcome of one run of `main`: exit code, which of the two
error messages went to the console, the grid and block dimensions of the
launch (when one happened), the kernels launched in order, the final
destination buffer, the mismatch diagnostics, and the abort and success
messages. -/
structure RunResult where
  exitCode : Int
  printedShapeErr : Bool
  printedEvenErr : Bool
  gridDim : Option (Nat × Nat)
  blockDim : Option Nat
  launched : List KernelKind
  dst : Nat → Nat
  reported : List (Nat × Nat × Nat)
  printedAbort : Bool
  printedSuccess : Bool

/-- The driver `main`, generalised over the extents, tile shape, thread
shape and vector shape that the source fixes to `(256,512)`, `(128,64)`,
`(32,8)` and `(4,1)`. Straight-line control flow of the source: the modulus
check, then the `evenly_divides` check, then one launch of
`copy_kernel_vectorized` over the grid `(m', n') = (m/M, n/N)` with
`TM*TN` lanes per work-group, then the verification loop over all
`m*n` elements. -/
def driver (m n M N TM TN V : Nat) (S D0 : Nat → Nat) : RunResult :=
  if m % M ≠ 0 ∨ n % N ≠ 0 then
    ⟨-1, true, false, none, none, [], D0, [], false, false⟩
  else if evenly_divides m n M N = false then
    ⟨-1, false, true, none, none, [], D0, [], false, false⟩
  else
    let dst := vecCopy m n M N TM TN V S D0
    let v := verify S dst (m * n)
    ⟨v.exitCode, false, false, some (m / M, n / N), some (TM * TN),
      [KernelKind.vectorized], dst, v.reported, v.printedAbort, v.printedSuccess⟩

/-- Initial host source buffer of `main`: `h_S[i] = static_cast<float>(i)`;
the value `i` stands for the bit pattern of `float(i)` (exact for every
`i < 2^24`, in particular on all 131072 used indices, so distinct indices
hold distinct patterns). -/
def hS : Nat → Nat := fun i => i

/-- Initial destination buffer of `main`: `h_D` is value-initialised to
zeros by `std::vector` and copied to the device. -/
def hD0 : Nat → Nat := fun _ => 0

/-- The run of `main` exactly as written: extents `(256, 512)`, tile
`(128, 64)`, threads `(32, 8)`, vectors `(4, 1)`. -/
def mainResult : RunResult :=
  driver 256 512 128 64 32 8 4 hS hD0

/-- `main` with its command-line parameters: `argc` and `argv` are accepted
and, as in the source, never read by the body. -/
def mainWithArgs (_argc : Int) (_argv : List String) : RunResult :=
  mainResult

/-! ### Store-level view of the kernels

`d_S` and `d_D` are two disjoint device allocations of `m*n` elements each;
model them as one store with `d_S` at offsets `[0, m*n)` and `d_D` at
offsets `[m*n, 2*m*n)`. A kernel writes `D[i] := S[i]` exactly at the
covered offsets `i`, i.e. it writes store address `m*n + i` with the value
at store address `i`, and touches nothing else; the verification loop only
reads. -/

/-- Store transformer of a full `copy_kernel` launch. -/
def naiveKernelStore (m n M N TM TN : Nat) (mem : Nat → Nat) : Nat → Nat :=
  fun a =>
    if m * n ≤ a ∧ naiveCovers m n M N TM TN (a - m * n) then mem (a - m * n)
    else mem a

/-- Store transformer of a full `copy_kernel_vectorized` launch. -/
def vecKernelStore (m n M N TM TN V : Nat) (mem : Nat → Nat) : Nat → Nat :=
  fun a =>
    if m * n ≤ a ∧ vecCovers m n M N TM TN V (a - m * n) then mem (a - m * n)
    else mem a

/-- Device store of `main` right after the two `memcpy` calls: the source
allocation holds the sequence `0..131071`, the destination allocation holds
zeros. -/
def mainStoreInit : Nat → Nat :=
  fun a => if a < 256 * 512 then a else 0

/-- Device store of `main` after the vectorized kernel launch (and hence
after the verification loop, which performs no store write). -/
def mainStoreFinal : Nat → Nat :=
  vecKernelStore 256 512 128 64 32 8 4 mainStoreInit

/-! ### Concrete buffers used as witnesses -/

/-- Source buffer holding `1` everywhere. -/
def oneBuf : Nat → Nat := fun _ => 1

/-- Destination buffer holding `0` everywhere. -/
def zeroBuf : Nat → Nat := fun _ => 0

/-- Source buffer holding `i + 1` at index `i`. -/
def succBuf : Nat → Nat := fun i => i + 1

/-! ### Shared helper lemmas for the claims -/

theorem vecCopy_eq_src {m n M N TM TN V : Nat} (S D0 : Nat → Nat)
    (hTMV : TM * V ∣ M) (hTNN : TN ∣ N) (hMm : M ∣ m) (hNn : N ∣ n)
    (i : Nat) (hi : i < m * n) :
    vecCopy m n M N TM TN V S D0 i = S i := by
  unfold vecCopy copyResult
  rw [if_pos ((vecCovers_iff hTMV hTNN hMm hNn i).mpr hi)]

theorem naiveKernelStore_frame (m n M N TM TN : Nat) (mem : Nat → Nat)
    (a : Nat) (ha : a < m * n) :
    naiveKernelStore m n M N TM TN mem a = mem a := by
  unfold naiveKernelStore
  rw [if_neg]
  exact fun h => absurd h.1 (by omega)

theorem vecKernelStore_frame (m n M N TM TN V : Nat) (mem : Nat → Nat)
    (a : Nat) (ha : a < m * n) :
    vecKernelStore m n M N TM TN V mem a = mem a := by
  unfold vecKernelStore
  rw [if_neg]
  exact fun h => absurd h.1 (by omega)

/-! ### Claims -/

/-- C1: for every pair of array extents `(m, n)` and tile extents `(M, N)`
in which each array extent is an exact multiple of the corresponding tile
extent — and the tile is compatible with the thread and vector layouts,
which the source states the library enforces at compile time — running the
copy (tile both tensors, launch the vectorized kernel over all tiles, wait)
yields a destination whose value at every in-range flat index is
bit-identical to the source value at that index. -/
theorem vectorized_copy_correct (m n M N TM TN V : Nat) (S D0 : Nat → Nat)
    (hTMV : TM * V ∣ M) (hTNN : TN ∣ N) (hMm : M ∣ m) (hNn : N ∣ n) :
    ∀ i, i < m * n → vecCopy m n M N TM TN V S D0 i = S i :=
  fun i hi => vecCopy_eq_src S D0 hTMV hTNN hMm hNn i hi

/-- Witness for C1 at the program's own parameters. -/
theorem vectorized_copy_correct_witness :
    (32 * 4 ∣ 128) ∧ (8 ∣ 64) ∧ (128 ∣ 256) ∧ (64 ∣ 512) ∧
    (12345 < 256 * 512) ∧
    vecCopy 256 512 128 64 32 8 4 hS hD0 12345 = hS 12345 :=
  ⟨by decide, by decide, by decide, by decide, by decide,
    vectorized_copy_correct 256 512 128 64 32 8 4 hS hD0
      (by decide) (by decide) (by decide) (by decide) 12345 (by decide)⟩

/-- C2 (counterexample): with exactly one mismatch — so `0 < k < 10` — the
loop reports the mismatch but `main` then prints the success message and
returns `0`, not a nonzero exit code as the claim states. -/
theorem below_limit_zero_exit_counterexample :
    (mismatchList oneBuf zeroBuf (List.range 1)).length = 1 ∧
    (verify oneBuf zeroBuf 1).exitCode = 0 ∧
    (verify oneBuf zeroBuf 1).printedSuccess = true := by decide

/-- C2 (amended): for every run of the verification loop in which the
buffers differ at exactly `k` indices with `0 < k < 10`, all `k`
mismatching index/value pairs are reported, but the loop then falls
through: the success message is printed and the exit status is `0`. -/
theorem verify_below_limit_reports_all (S D : Nat → Nat) (len : Nat)
    (_h0 : 0 < (mismatchList S D (List.range len)).length)
    (h9 : (mismatchList S D (List.range len)).length < kErrorLimit) :
    verify S D len =
      ⟨0, (mismatchList S D (List.range len)).map (reportOf S D),
        false, true⟩ := by
  unfold verify
  rw [verifyAux_under_limit S D (List.range len) 0 [] (by omega)]
  simp

/-- Witness for C2's amended claim. -/
theorem verify_below_limit_reports_all_witness :
    0 < (mismatchList oneBuf zeroBuf (List.range 1)).length ∧
    (mismatchList oneBuf zeroBuf (List.range 1)).length < kErrorLimit ∧
    verify oneBuf zeroBuf 1 =
      ⟨0, (mismatchList oneBuf zeroBuf (List.range 1)).map (reportOf oneBuf zeroBuf),
        false, true⟩ :=
  ⟨by decide, by decide,
    verify_below_limit_reports_all oneBuf zeroBuf 1 (by decide) (by decide)⟩

/-- C3: whenever some array extent is not an exact multiple of the
corresponding tile extent, the program prints the precondition-violation
message and exits with status `-1` without launching any kernel. -/
theorem shape_check_blocks_launch (m n M N TM TN V : Nat) (S D0 : Nat → Nat)
    (h : m % M ≠ 0 ∨ n % N ≠ 0) :
    (driver m n M N TM TN V S D0).exitCode = -1 ∧
    (driver m n M N TM TN V S D0).printedShapeErr = true ∧
    (driver m n M N TM TN V S D0).launched = [] := by
  unfold driver
  rw [if_pos h]
  exact ⟨rfl, rfl, rfl⟩

/-- Witness for C3 at the spec's concrete scenario `(100, 100)` with tile
`(128, 64)`. -/
theorem shape_check_blocks_launch_witness :
    (100 % 128 ≠ 0 ∨ 100 % 64 ≠ 0) ∧
    ((driver 100 100 128 64 32 8 4 hS hD0).exitCode = -1 ∧
     (driver 100 100 128 64 32 8 4 hS hD0).printedShapeErr = true ∧
     (driver 100 100 128 64 32 8 4 hS hD0).launched = []) :=
  ⟨by decide, shape_check_blocks_launch 100 100 128 64 32 8 4 hS hD0 (by decide)⟩

/-- C4: when the buffers differ at `k ≥ 10` indices, exactly the first 10
mismatching index/value pairs are printed, the loop stops at the 10th
mismatch (the report list is the 10-element prefix of the mismatches), the
aborting message is printed, and the run exits with status `-1`. -/
theorem verify_at_limit_reports_ten (S D : Nat → Nat) (len : Nat)
    (h : kErrorLimit ≤ (mismatchList S D (List.range len)).length) :
    verify S D len =
      ⟨-1, ((mismatchList S D (List.range len)).take kErrorLimit).map (reportOf S D),
        true, false⟩ ∧
    (verify S D len).reported.length = kErrorLimit := by
  have heq : verify S D len =
      ⟨-1, ((mismatchList S D (List.range len)).take kErrorLimit).map (reportOf S D),
        true, false⟩ := by
    unfold verify
    rw [verifyAux_at_limit S D (List.range len) 0 [] (by simp [kErrorLimit]) (by omega)]
    simp
  refine ⟨heq, ?_⟩
  rw [heq]
  simp only [List.length_map, List.length_take]
  omega

/-- Witness for C4: twelve mismatches, ten reported. -/
theorem verify_at_limit_reports_ten_witness :
    kErrorLimit ≤ (mismatchList succBuf zeroBuf (List.range 12)).length ∧
    (verify succBuf zeroBuf 12 =
      ⟨-1, ((mismatchList succBuf zeroBuf (List.range 12)).take kErrorLimit).map
        (reportOf succBuf zeroBuf), true, false⟩ ∧
     (verify succBuf zeroBuf 12).reported.length = kErrorLimit) :=
  ⟨by decide, verify_at_limit_reports_ten succBuf zeroBuf 12 (by decide)⟩

/-- C5: for every source, destination and thread arrangement satisfying the
divisibility preconditions, with a vector shape whose width evenly divides
the tile width (together: `TM*V ∣ M`, `TN ∣ N`, `M ∣ m`, `N ∣ n`), the naive
kernel `copy_kernel` and the vectorized kernel `copy_kernel_vectorized`
produce identical destination contents from the same input. -/
theorem kernels_agree (m n M N TM TN V : Nat) (S D0 : Nat → Nat)
    (hTMV : TM * V ∣ M) (hTNN : TN ∣ N) (hMm : M ∣ m) (hNn : N ∣ n) :
    naiveCopy m n M N TM TN S D0 = vecCopy m n M N TM TN V S D0 := by
  have hTMM : TM ∣ M := dvd_trans (dvd_mul_right TM V) hTMV
  funext i
  unfold naiveCopy vecCopy copyResult
  by_cases hi : i < m * n
  · rw [if_pos ((naiveCovers_iff hTMM hTNN hMm hNn i).mpr hi),
      if_pos ((vecCovers_iff hTMV hTNN hMm hNn i).mpr hi)]
  · have h1 : ¬ naiveCovers m n M N TM TN i = true :=
      fun h => hi ((naiveCovers_iff hTMM hTNN hMm hNn i).mp h)
    have h2 : ¬ vecCovers m n M N TM TN V i = true :=
      fun h => hi ((vecCovers_iff hTMV hTNN hMm hNn i).mp h)
    rw [if_neg h1, if_neg h2]

/-- Witness for C5 at the program's own parameters. -/
theorem kernels_agree_witness :
    (32 * 4 ∣ 128) ∧ (8 ∣ 64) ∧ (128 ∣ 256) ∧ (64 ∣ 512) ∧
    naiveCopy 256 512 128 64 32 8 hS hD0 = vecCopy 256 512 128 64 32 8 4 hS hD0 :=
  ⟨by decide, by decide, by decide, by decide,
    kernels_agree 256 512 128 64 32 8 4 hS hD0
      (by decide) (by decide) (by decide) (by decide)⟩

/-- C6: the program as written — source `(256, 512)` holding the sequence
`0..131071`, tile `(128, 64)`, threads `(32, 8)`, vectors `(4, 1)` — ends
with the destination identical to the source at every index, an empty
mismatch report, the success message on the console, and exit code `0`. -/
theorem main_run_success :
    mainResult.exitCode = 0 ∧ mainResult.printedSuccess = true ∧
    mainResult.reported = [] ∧
    ∀ i, i < 256 * 512 → mainResult.dst i = hS i := by
  have hdst : ∀ i, i < 256 * 512 → vecCopy 256 512 128 64 32 8 4 hS hD0 i = hS i :=
    fun i hi => vecCopy_eq_src hS hD0 (by decide) (by decide) (by decide) (by decide) i hi
  have hmm : mismatchList hS (vecCopy 256 512 128 64 32 8 4 hS hD0)
      (List.range (256 * 512)) = [] := by
    rw [mismatchList, List.filter_eq_nil_iff]
    intro a ha
    rw [List.mem_range] at ha
    simp [hdst a ha]
  have hver : verify hS (vecCopy 256 512 128 64 32 8 4 hS hD0) (256 * 512) =
      ⟨0, [], false, true⟩ := by
    unfold verify
    rw [verifyAux_under_limit hS _ (List.range (256 * 512)) 0 []
      (by rw [hmm]; simp [kErrorLimit])]
    rw [hmm]
    simp
  have hmain : mainResult =
      ⟨(verify hS (vecCopy 256 512 128 64 32 8 4 hS hD0) (256 * 512)).exitCode,
        false, false, some (256 / 128, 512 / 64), some (32 * 8),
        [KernelKind.vectorized], vecCopy 256 512 128 64 32 8 4 hS hD0,
        (verify hS (vecCopy 256 512 128 64 32 8 4 hS hD0) (256 * 512)).reported,
        (verify hS (vecCopy 256 512 128 64 32 8 4 hS hD0) (256 * 512)).printedAbort,
        (verify hS (vecCopy 256 512 128 64 32 8 4 hS hD0) (256 * 512)).printedSuccess⟩ := by
    unfold mainResult driver
    rw [if_neg (by decide), if_neg (by decide)]
  rw [hmain, hver]
  exact ⟨rfl, rfl, rfl, hdst⟩

/-- Witness for C6's per-index part at the last index. -/
theorem main_run_success_witness :
    (131071 < 256 * 512) ∧ mainResult.dst 131071 = hS 131071 :=
  ⟨by decide, main_run_success.2.2.2 131071 (by decide)⟩

/-- C7: the driver computes the grid dimensions as exactly the two
tile-count modes `(m', n') = (256/128, 512/64) = (2, 8)` of the tiled
destination tensor, the block dimension as the total lane count
`32*8 = 256` of the thread arrangement, and dispatches exactly one kernel
invocation — the vectorized kernel only. -/
theorem grid_block_single_launch :
    mainResult.gridDim = some (256 / 128, 512 / 64) ∧
    mainResult.gridDim = some (2, 8) ∧
    mainResult.blockDim = some (32 * 8) ∧
    mainResult.blockDim = some 256 ∧
    mainResult.launched = [KernelKind.vectorized] ∧
    mainResult.launched.length = 1 := by
  unfold mainResult driver
  rw [if_neg (by decide), if_neg (by decide)]
  exact ⟨rfl, rfl, rfl, rfl, rfl, rfl⟩

/-- C8: the source buffer is never modified after its transfer to the
device: neither kernel's store transformer touches the source region of the
store, and in the concrete run (where verification only reads) the source
region still holds the initial sequence `0..131071` at the end. -/
theorem source_region_preserved :
    (∀ m n M N TM TN : Nat, ∀ mem : Nat → Nat, ∀ a, a < m * n →
      naiveKernelStore m n M N TM TN mem a = mem a) ∧
    (∀ m n M N TM TN V : Nat, ∀ mem : Nat → Nat, ∀ a, a < m * n →
      vecKernelStore m n M N TM TN V mem a = mem a) ∧
    (∀ a, a < 256 * 512 → mainStoreFinal a = a) := by
  refine ⟨naiveKernelStore_frame, vecKernelStore_frame, fun a ha => ?_⟩
  unfold mainStoreFinal
  rw [vecKernelStore_frame 256 512 128 64 32 8 4 mainStoreInit a ha]
  unfold mainStoreInit
  rw [if_pos ha]

/-- Witness for C8 at concrete addresses. -/
theorem source_region_preserved_witness :
    (5 < 2 * 3) ∧ naiveKernelStore 2 3 1 1 1 1 hS 5 = hS 5 ∧
    (7 < 256 * 512) ∧ mainStoreFinal 7 = 7 :=
  ⟨by decide, source_region_preserved.1 2 3 1 1 1 1 hS 5 (by decide),
    by decide, source_region_preserved.2.2 7 (by decide)⟩

/-- C9: `argc` and `argv` are accepted but never read, so two runs with any
two argument vectors have identical observable behaviour — the same console
output, launches, final buffers and exit code. -/
theorem args_ignored :
    ∀ (a1 : Int) (v1 : List String) (a2 : Int) (v2 : List String),
      mainWithArgs a1 v1 = mainWithArgs a2 v2 :=
  fun _ _ _ _ => rfl

/-- C10: the modulus-based divisibility check and the (spec-modelled)
library check `evenly_divides` decide the same condition on every shape
pair, so the second check in `main` can never fire once the first has
passed, and the second error message is never printed on any run. -/
theorem divisibility_checks_equivalent :
    (∀ m n M N : Nat, (m % M ≠ 0 ∨ n % N ≠ 0) ↔ evenly_divides m n M N = false) ∧
    (∀ m n M N TM TN V : Nat, ∀ S D0 : Nat → Nat,
      (driver m n M N TM TN V S D0).printedEvenErr = false) := by
  constructor
  · intro m n M N
    by_cases h1 : m % M = 0 <;> by_cases h2 : n % N = 0 <;>
      simp [evenly_divides, h1, h2]
  · intro m n M N TM TN V S D0
    unfold driver
    by_cases h1 : m % M ≠ 0 ∨ n % N ≠ 0
    · rw [if_pos h1]
    · rw [if_neg h1]
      push_neg at h1
      have hev : evenly_divides m n M N = true := by
        simp [evenly_divides, h1.1, h1.2]
      rw [if_neg (by simp [hev])]

/-- Witness for C10 at the spec's failing scenario and the program's run. -/
theorem divisibility_checks_equivalent_witness :
    ((100 % 128 ≠ 0 ∨ 100 % 64 ≠ 0) ↔ evenly_divides 100 100 128 64 = false) ∧
    (driver 256 512 128 64 32 8 4 hS hD0).printedEvenErr = false :=
  ⟨divisibility_checks_equivalent.1 100 100 128 64,
    divisibility_checks_equivalent.2 256 512 128 64 32 8 4 hS hD0⟩

end TiledCopy
